import Mathlib

/-!
Verification of the gesture-to-scene control core of the Christmas-Tree
repository (src/components/HandController.tsx, src/components/MagicTree.tsx,
src/App.tsx) against its natural-language specification.

The TypeScript source is shallowly embedded: numeric values are modelled as
rationals, each per-sample callback (MediaPipe detector tick) and each render
frame (three.js useFrame) becomes an explicit step function on a state record,
and React state updates inside one tick are modelled with the batched
last-write-wins semantics of React 18 (all setState calls queued during one
callback are applied together; callbacks close over the state committed at the
previous render).
-/

/-- Application mode, from src/types (the AppState enum used throughout:
TREE, SCATTERED, PHOTO_VIEW). -/
inductive AppState where
  | TREE
  | SCATTERED
  | PHOTO_VIEW
deriving DecidableEq, Repr

open AppState

/-- One MediaPipe hand landmark: normalized image coordinates x, y and the
relative depth hint z, as consumed by processGestures in HandController.tsx. -/
structure Landmark where
  x : ℚ
  y : ℚ
  z : ℚ
deriving DecidableEq, Repr

/-- A hand sample: the 21 landmarks (indices 0..20) of one detected hand,
result.landmarks[0] in processGestures. -/
def Hand : Type := Fin 21 → Landmark

/-- Squared distance between two landmarks, the distSq helper of
processGestures (HandController.tsx line 232). -/
def distSq (p q : Landmark) : ℚ :=
  (p.x - q.x) ^ 2 + (p.y - q.y) ^ 2 + (p.z - q.z) ^ 2

/-- Midpoint x of wrist (landmark 0) and middle-finger MCP (landmark 9):
centerX in processGestures (HandController.tsx line 235). -/
def palmCenterX (h : Hand) : ℚ := ((h 0).x + (h 9).x) / 2

/-- Midpoint y of wrist and middle-finger MCP: centerY in processGestures
(HandController.tsx line 236). -/
def palmCenterY (h : Hand) : ℚ := ((h 0).y + (h 9).y) / 2

/-- Raw pointer x, palmX in processGestures (HandController.tsx lines
242-253): mirrored mode maps low image x to high output, normal mode the
opposite. -/
def palmX (mirrored : Bool) (h : Hand) : ℚ :=
  if mirrored then (1/2 - palmCenterX h) * 2 else (palmCenterX h - 1/2) * 2

/-- Raw pointer y, palmY in processGestures (HandController.tsx line 255):
image y grows downward, pointer y grows upward. -/
def palmY (h : Hand) : ℚ := (1/2 - palmCenterY h) * 2

/-- Raw pointer z, zoomFactor in processGestures (HandController.tsx line
258): Math.min(Math.max((palmSize - 0.1) * 3.33, 0), 1).  The argument is
palmSize = sqrt(distSq(landmark[0], landmark[9])); the square root is kept
abstract as a rational input. -/
def zoomFactor (palmSize : ℚ) : ℚ :=
  min (max ((palmSize - 1/10) * (333/100)) 0) 1

/-- Clamp of v to the interval from lo to hi, the composition
Math.min(Math.max(v, lo), hi) used by the source. -/
def clampQ (v lo hi : ℚ) : ℚ := min (max v lo) hi

/-- Finger-curl test, isFingerCurled in processGestures (HandController.tsx
lines 271-273): the tip is strictly closer to the wrist (landmark 0) than the
pip, compared in squared distance. -/
def isFingerCurled (h : Hand) (tipIdx pipIdx : Fin 21) : Bool :=
  decide (distSq (h tipIdx) (h 0) < distSq (h pipIdx) (h 0))

/-- All four fingers curled (tip/pip pairs 8/5, 12/9, 16/13, 20/17):
fingersFolded in processGestures (HandController.tsx lines 275-279). -/
def fingersFolded (h : Hand) : Bool :=
  isFingerCurled h 8 5 && isFingerCurled h 12 9 &&
  isFingerCurled h 16 13 && isFingerCurled h 20 17

/-- Pinch hysteresis enter threshold, PINCH_ENTER = 0.06
(HandController.tsx line 285). -/
def PINCH_ENTER : ℚ := 6/100

/-- Pinch hysteresis exit threshold, PINCH_EXIT = 0.10
(HandController.tsx line 286). -/
def PINCH_EXIT : ℚ := 10/100

/-- One step of the pinch latch of processGestures (HandController.tsx lines
288-293), parametric in the two thresholds: a latched state releases only
when the thumb-index distance d exceeds the exit threshold, an unlatched
state trips only when d drops below the enter threshold. -/
def pinchLatchStepP (enter exit : ℚ) (l : Bool) (d : ℚ) : Bool :=
  if l then
    (if d > exit then false else true)
  else
    (if d < enter then true else false)

/-- The pinch latch step at the source's thresholds 0.06 / 0.10
(HandController.tsx lines 285-293), taking the code's pinchDist
(= sqrt(distSq(landmark[4], landmark[8]))) as input. -/
def pinchLatchStep (l : Bool) (d : ℚ) : Bool :=
  pinchLatchStepP PINCH_ENTER PINCH_EXIT l d

/-- The pinch latch step acting on the squared thumb-index distance.  The
source compares pinchDist = sqrt(s) against the thresholds; since
sqrt(s) < c holds exactly when s < c^2 (for 0 <= s and 0 < c), the
embedding compares the square s against the squared thresholds, keeping all
arithmetic rational. -/
def pinchLatchStepSq (l : Bool) (s : ℚ) : Bool :=
  if l then
    (if s > PINCH_EXIT ^ 2 then false else true)
  else
    (if s < PINCH_ENTER ^ 2 then true else false)

/-- Smoothed pointer state, the three components of smoothedHandPosRef in
App.tsx. -/
structure Vec3 where
  x : ℚ
  y : ℚ
  z : ℚ
deriving DecidableEq, Repr

/-- One iteration of the pointer smoothing loop of App.tsx (lines 146-153):
current += (target - current) * lerpFactor with lerpFactor = 0.15, applied
per component. -/
def smoothStep (current target : Vec3) : Vec3 :=
  ⟨current.x + (target.x - current.x) * (15/100),
   current.y + (target.y - current.y) * (15/100),
   current.z + (target.z - current.z) * (15/100)⟩

/-- Combined discrete state of the pipeline: lastState is the
lastStateRef of HandController.tsx, mode is App.tsx's appState, grab is
App.tsx's isGrabbing, latch is wasPinchingRef of HandController.tsx, and
active is MagicTree.tsx's activePhoto selection. -/
structure SysState where
  lastState : AppState
  mode : AppState
  grab : Bool
  latch : Bool
  active : Option ℕ
deriving DecidableEq, Repr

/-- Result of one detector tick: the post-tick state plus the onStateChange
and onGrab emissions of that tick, in call order. -/
structure DetectOut where
  state : SysState
  modeEmits : List AppState
  grabEmits : List Bool
deriving DecidableEq, Repr

/-- One detector tick: processGestures (HandController.tsx lines 226-315)
together with App.tsx's handlers handleStateChange (line 172), handleGrab
(lines 180-185) and the activePhoto-clearing effect of MagicTree.tsx (lines
42-46).  A sample with no landmarks returns immediately (line 227).
Otherwise the latch advances by the hysteresis step on the squared
thumb-index distance; if all four fingers are curled the state machine
forces lastState to TREE (emitting TREE only on change), emits grab false
and clears the latch; otherwise a TREE lastState moves to SCATTERED
(emitting SCATTERED) and the latch value is emitted as grab.  The App-side
setAppState calls queued during the tick (handleStateChange's new state,
then handleGrab's SCATTERED when grab turns false while the committed mode
is PHOTO_VIEW) are applied batched, last write wins, with handleGrab closing
over the previously committed mode; MagicTree's effect then clears active
exactly when the committed mode changed to SCATTERED. -/
def detectStep (s : SysState) (sample : Option Hand) : DetectOut :=
  match sample with
  | none => ⟨s, [], []⟩
  | some h =>
    let latch1 := pinchLatchStepSq s.latch (distSq (h 4) (h 8))
    if fingersFolded h then
      let emitTree := s.lastState ≠ AppState.TREE
      let mode2 := if s.mode = AppState.PHOTO_VIEW then AppState.SCATTERED
                   else if emitTree then AppState.TREE else s.mode
      let active2 := if mode2 ≠ s.mode ∧ mode2 = AppState.SCATTERED then none else s.active
      ⟨⟨AppState.TREE, mode2, false, false, active2⟩,
        if emitTree then [AppState.TREE] else [], [false]⟩
    else
      let emitScatter := s.lastState = AppState.TREE
      let lastState2 := if emitScatter then AppState.SCATTERED else s.lastState
      let mode1 := if emitScatter then AppState.SCATTERED else s.mode
      let mode2 := if latch1 = false ∧ s.mode = AppState.PHOTO_VIEW then AppState.SCATTERED
                   else mode1
      let active2 := if mode2 ≠ s.mode ∧ mode2 = AppState.SCATTERED then none else s.active
      ⟨⟨lastState2, mode2, latch1, latch1, active2⟩,
        if emitScatter then [AppState.SCATTERED] else [], [latch1]⟩

/-- Result of one render frame's interaction logic: the post-frame state and
whether the pick raycast was performed on this frame. -/
structure FrameOut where
  state : SysState
  raycast : Bool
deriving DecidableEq, Repr

/-- One render frame's interaction logic, the tail of MagicTree.tsx's
useFrame (lines 153-177): when mode is SCATTERED, grab is held and no photo
is active, the raycast runs; the outcome of the three.js ray intersection is
external geometry and enters as the hit argument.  A hit index becomes the
active photo and onPhotoSelect fires App.tsx's handlePhotoSelect (lines
187-191), which moves a SCATTERED mode to PHOTO_VIEW.  Otherwise, in
PHOTO_VIEW with grab released the active photo is cleared. -/
def frameStep (s : SysState) (hit : Option ℕ) : FrameOut :=
  if s.mode = AppState.SCATTERED ∧ s.grab = true ∧ s.active = none then
    match hit with
    | some i => ⟨⟨s.lastState, AppState.PHOTO_VIEW, s.grab, s.latch, some i⟩, true⟩
    | none => ⟨s, true⟩
  else if s.mode = AppState.PHOTO_VIEW ∧ s.grab = false then
    ⟨⟨s.lastState, s.mode, s.grab, s.latch, none⟩, false⟩
  else
    ⟨s, false⟩

/-- An event of a run: either a detector tick carrying an optional hand
sample, or a render frame carrying the external raycast outcome. -/
inductive SysEvent where
  | detect (sample : Option Hand)
  | frame (hit : Option ℕ)

/-- Advance the system state by one event. -/
def stepEv (s : SysState) (e : SysEvent) : SysState :=
  match e with
  | .detect sample => (detectStep s sample).state
  | .frame hit => (frameStep s hit).state

/-- Initial state: mode TREE (App.tsx line 90, lastStateRef at
HandController.tsx line 23), not grabbing, latch clear, no selection. -/
def sysInit : SysState :=
  ⟨AppState.TREE, AppState.TREE, false, false, none⟩

/-- Run the system from the initial state through a list of events. -/
def sysRun (es : List SysEvent) : SysState := es.foldl stepEv sysInit

/-- Grab emissions (onGrab calls) produced by a list of detector samples, in
order, starting from state s. -/
def grabEmitsRun (s : SysState) (samples : List (Option Hand)) : List Bool :=
  match samples with
  | [] => []
  | sm :: rest =>
    let out := detectStep s sm
    out.grabEmits ++ grabEmitsRun out.state rest

/-- Grab levels after each hand-present detector sample of a run, starting
from state s: the value of isGrabbing after each processed sample. -/
def grabLevelsRun (s : SysState) (samples : List (Option Hand)) : List Bool :=
  match samples with
  | [] => []
  | sm :: rest =>
    let out := detectStep s sm
    (if sm.isSome then [out.state.grab] else []) ++ grabLevelsRun out.state rest

/-- Default landmark for the unconstrained indices of the concrete test hands
below: the image center. -/
def defaultLm : Landmark := ⟨1/2, 1/2, 0⟩

/-- A concrete open, pinching hand: the index finger is not curled (tip
farther from the wrist than the pip) and the thumb tip is 0.01 away from the
index tip in squared distance, well below the squared enter threshold. -/
def pinchHand : Hand := fun i =>
  if i.val = 4 then ⟨1/2, 1/5, 0⟩
  else if i.val = 8 then ⟨1/2, 21/100, 0⟩
  else if i.val = 5 then ⟨1/2, 2/5, 0⟩
  else if i.val = 9 then ⟨1/2, 3/10, 0⟩
  else defaultLm

/-- A concrete open, non-pinching hand: like pinchHand but with the thumb tip
far from the index tip, above the squared exit threshold. -/
def openHand : Hand := fun i =>
  if i.val = 4 then ⟨1/10, 1/2, 0⟩
  else if i.val = 8 then ⟨1/2, 21/100, 0⟩
  else if i.val = 5 then ⟨1/2, 2/5, 0⟩
  else if i.val = 9 then ⟨1/2, 3/10, 0⟩
  else defaultLm

/-- A concrete fist: every tip (8, 12, 16, 20) is strictly closer to the
wrist than the corresponding pip (5, 9, 13, 17) in squared distance. -/
def fistHand : Hand := fun i =>
  if i.val = 8 then ⟨3/5, 1/2, 0⟩
  else if i.val = 5 then ⟨7/10, 1/2, 0⟩
  else if i.val = 12 then ⟨1/2, 3/5, 0⟩
  else if i.val = 9 then ⟨1/2, 7/10, 0⟩
  else if i.val = 16 then ⟨2/5, 1/2, 0⟩
  else if i.val = 13 then ⟨3/10, 1/2, 0⟩
  else if i.val = 20 then ⟨1/2, 2/5, 0⟩
  else if i.val = 17 then ⟨1/2, 3/10, 0⟩
  else defaultLm


/-- A concrete hand whose palm center sits at image x = 0.25, for the mirror
parity instance of the pointer derivation. -/
def quarterHand : Hand := fun _ => ⟨1/4, 1/2, 0⟩

/-- The state reached from the initial state by one processed pinch sample:
mode SCATTERED with grab held and no selection. -/
def sgState : SysState := sysRun [SysEvent.detect (some pinchHand)]

/-- The state reached from the initial state by one processed pinch sample
followed by a render frame whose raycast hits photo 0: mode PHOTO_VIEW with
grab held and photo 0 selected. -/
def pvState : SysState :=
  sysRun [SysEvent.detect (some pinchHand), SysEvent.frame (some 0)]

/-- Morph target, targetLerp in MagicTree.tsx's useFrame (line 54): 0 when
the mode is TREE, 1 otherwise. -/
def targetLerp (mode : AppState) : ℚ := if mode = AppState.TREE then 0 else 1

/-- One render tick of the morph parameter, MagicTree.tsx line 55:
currentLerp += (targetLerp - currentLerp) * delta * 2, with no clamping of
the step factor. -/
def lerpAdvance (m : ℚ) (mode : AppState) (dt : ℚ) : ℚ :=
  m + (targetLerp mode - m) * dt * 2

/-- Modelled from the spec: the spec's morph advance rule
m + clamp(dt * k, 0, 1) * (target - m) with k = 2, stated for comparison
with the source's lerpAdvance. -/
def specLerpAdvance (m : ℚ) (mode : AppState) (dt : ℚ) : ℚ :=
  m + clampQ (dt * 2) 0 1 * (targetLerp mode - m)

/-- The morph parameter after a list of render ticks (mode, dt), starting
from currentLerp = 0 (MagicTree.tsx line 40). -/
def lerpRun (ticks : List (AppState × ℚ)) : ℚ :=
  ticks.foldl (fun m p => lerpAdvance m p.1 p.2) 0

/-- Number of rising edges (false to true) the parametric pinch latch
produces along a list of thumb-index distances, starting from latch l. -/
def countRises (enter exit : ℚ) (l : Bool) (ds : List ℚ) : ℕ :=
  match ds with
  | [] => 0
  | d :: rest =>
    let l' := pinchLatchStepP enter exit l d
    (if l' && !l then 1 else 0) + countRises enter exit l' rest

/-- Number of falling edges (true to false) the parametric pinch latch
produces along a list of thumb-index distances, starting from latch l. -/
def countFalls (enter exit : ℚ) (l : Bool) (ds : List ℚ) : ℕ :=
  match ds with
  | [] => 0
  | d :: rest =>
    let l' := pinchLatchStepP enter exit l d
    (if !l' && l then 1 else 0) + countFalls enter exit l' rest

/-- The hysteresis-stability test stream of the spec: thumb-index distances
alternating 0.055, 0.065, 0.055, ... for n samples. -/
def altList (n : ℕ) : List ℚ :=
  (List.range n).map (fun i => if i % 2 = 0 then 55/1000 else 65/1000)

/-- Claim C2: the pinch latch follows exactly the hysteresis rule: from
unlatched it trips only on d strictly below 0.06, from latched it releases
only on d strictly above 0.10; d = 0.06 does not trip it, d = 0.10 does not
release it, and in every other case the latch keeps its value. -/
theorem C2_pinch_latch_hysteresis (d : ℚ) :
    (pinchLatchStep false d = true ↔ d < 6/100) ∧
    (pinchLatchStep true d = false ↔ 10/100 < d) ∧
    pinchLatchStep false (6/100) = false ∧
    pinchLatchStep true (10/100) = true ∧
    (pinchLatchStep false d = false ↔ ¬ d < 6/100) ∧
    (pinchLatchStep true d = true ↔ ¬ 10/100 < d) := by
  unfold pinchLatchStep pinchLatchStepP PINCH_ENTER PINCH_EXIT
  refine ⟨?_, ?_, ?_, ?_, ?_, ?_⟩ <;> simp

/-- Claim C9: each render frame the smoother performs
s := s + 0.15 * (raw - s) per component, and against a constant raw input the
per-component distance to raw is multiplied by 1 - 0.15 = 0.85 each step, so
it is non-increasing. -/
theorem C9_smoother_contraction (c t : Vec3) :
    (smoothStep c t).x = c.x + (t.x - c.x) * (15/100) ∧
    (smoothStep c t).y = c.y + (t.y - c.y) * (15/100) ∧
    (smoothStep c t).z = c.z + (t.z - c.z) * (15/100) ∧
    |(smoothStep c t).x - t.x| = (85/100) * |c.x - t.x| ∧
    |(smoothStep c t).y - t.y| = (85/100) * |c.y - t.y| ∧
    |(smoothStep c t).z - t.z| = (85/100) * |c.z - t.z| ∧
    |(smoothStep c t).x - t.x| ≤ |c.x - t.x| ∧
    |(smoothStep c t).y - t.y| ≤ |c.y - t.y| ∧
    |(smoothStep c t).z - t.z| ≤ |c.z - t.z| := by
  have key : ∀ a b : ℚ, |a + (b - a) * (15/100) - b| = (85/100) * |a - b| := by
    intro a b
    have h1 : a + (b - a) * (15/100) - b = (85/100) * (a - b) := by ring
    rw [h1, abs_mul]
    norm_num
  have le85 : ∀ a b : ℚ, (85/100) * |a - b| ≤ |a - b| := by
    intro a b
    nlinarith [abs_nonneg (a - b)]
  refine ⟨rfl, rfl, rfl, key c.x t.x, key c.y t.y, key c.z t.z, ?_, ?_, ?_⟩ <;>
    simp only [smoothStep] <;> rw [key] <;> apply le85

theorem fistHand_folded : fingersFolded fistHand = true := by
  have e0 : fistHand 0 = defaultLm := rfl
  have e8 : fistHand 8 = ⟨3/5, 1/2, 0⟩ := rfl
  have e5 : fistHand 5 = ⟨7/10, 1/2, 0⟩ := rfl
  have e12 : fistHand 12 = ⟨1/2, 3/5, 0⟩ := rfl
  have e9 : fistHand 9 = ⟨1/2, 7/10, 0⟩ := rfl
  have e16 : fistHand 16 = ⟨2/5, 1/2, 0⟩ := rfl
  have e13 : fistHand 13 = ⟨3/10, 1/2, 0⟩ := rfl
  have e20 : fistHand 20 = ⟨1/2, 2/5, 0⟩ := rfl
  have e17 : fistHand 17 = ⟨1/2, 3/10, 0⟩ := rfl
  simp only [fingersFolded, isFingerCurled, e0, e8, e5, e12, e9, e16, e13, e20, e17]
  norm_num [distSq, defaultLm]

theorem pinchHand_not_folded : fingersFolded pinchHand = false := by
  have e0 : pinchHand 0 = defaultLm := rfl
  have e8 : pinchHand 8 = ⟨1/2, 21/100, 0⟩ := rfl
  have e5 : pinchHand 5 = ⟨1/2, 2/5, 0⟩ := rfl
  simp only [fingersFolded, isFingerCurled, e0, e8, e5, Bool.and_eq_false_iff]
  left; left
  norm_num [distSq, defaultLm]

theorem openHand_not_folded : fingersFolded openHand = false := by
  have e0 : openHand 0 = defaultLm := rfl
  have e8 : openHand 8 = ⟨1/2, 21/100, 0⟩ := rfl
  have e5 : openHand 5 = ⟨1/2, 2/5, 0⟩ := rfl
  simp only [fingersFolded, isFingerCurled, e0, e8, e5, Bool.and_eq_false_iff]
  left; left
  norm_num [distSq, defaultLm]

theorem pinchHand_pinches :
    ∀ l : Bool, pinchLatchStepSq l (distSq (pinchHand 4) (pinchHand 8)) = true := by
  have e4 : pinchHand 4 = ⟨1/2, 1/5, 0⟩ := rfl
  have e8 : pinchHand 8 = ⟨1/2, 21/100, 0⟩ := rfl
  intro l
  cases l <;>
    · simp only [pinchLatchStepSq, e4, e8]
      norm_num [distSq, PINCH_ENTER, PINCH_EXIT]

theorem openHand_releases :
    ∀ l : Bool, pinchLatchStepSq l (distSq (openHand 4) (openHand 8)) = false := by
  have e4 : openHand 4 = ⟨1/10, 1/2, 0⟩ := rfl
  have e8 : openHand 8 = ⟨1/2, 21/100, 0⟩ := rfl
  intro l
  cases l <;>
    · simp only [pinchLatchStepSq, e4, e8]
      norm_num [distSq, PINCH_ENTER, PINCH_EXIT]

/-- Claim C3: a processed sample with all four fingers curled (tip strictly
closer to the wrist than the pip, in squared distance) emits FIST: grab is
emitted false, the pinch latch is forcibly cleared whatever the thumb-index
distance, the state machine's mode resets to TREE from any mode, and
mode_changed(TREE) is emitted exactly when the mode was not already TREE. -/
theorem C3_fist_resets_to_tree (s : SysState) (h : Hand)
    (hf : fingersFolded h = true) :
    (fingersFolded h = true ↔
      (distSq (h 8) (h 0) < distSq (h 5) (h 0) ∧
       distSq (h 12) (h 0) < distSq (h 9) (h 0) ∧
       distSq (h 16) (h 0) < distSq (h 13) (h 0) ∧
       distSq (h 20) (h 0) < distSq (h 17) (h 0))) ∧
    (detectStep s (some h)).grabEmits = [false] ∧
    (detectStep s (some h)).state.grab = false ∧
    (detectStep s (some h)).state.latch = false ∧
    (detectStep s (some h)).state.lastState = AppState.TREE ∧
    (detectStep s (some h)).modeEmits =
      (if s.lastState ≠ AppState.TREE then [AppState.TREE] else []) := by
  refine ⟨?_, ?_⟩
  · simp [fingersFolded, isFingerCurled, Bool.and_eq_true, and_assoc]
  · simp [detectStep, hf]

/-- Witness for C3 at a concrete fist sample fed to the initial state. -/
theorem C3_fist_resets_to_tree_witness :
    (detectStep sysInit (some fistHand)).grabEmits = [false] ∧
    (detectStep sysInit (some fistHand)).state.latch = false ∧
    (detectStep sysInit (some fistHand)).state.lastState = AppState.TREE := by
  have h := C3_fist_resets_to_tree sysInit fistHand fistHand_folded
  exact ⟨h.2.1, h.2.2.2.1, h.2.2.2.2.1⟩

/-- Claim C6: the raw pointer is derived from the palm center
c = (landmark[0] + landmark[9]) / 2 by x = (0.5 - c.x) * 2 when mirrored and
(c.x - 0.5) * 2 otherwise, y = (0.5 - c.y) * 2, and
z = clamp((palm_size - 0.10) * 3.33, 0, 1), which always lies in [0, 1]; a
palm center at image x = 0.25 gives pointer x = +0.5 mirrored and -0.5
unmirrored. -/
theorem C6_pointer_derivation (h : Hand) (s : ℚ) :
    palmX true h = (1/2 - palmCenterX h) * 2 ∧
    palmX false h = (palmCenterX h - 1/2) * 2 ∧
    palmY h = (1/2 - palmCenterY h) * 2 ∧
    zoomFactor s = clampQ ((s - 1/10) * (333/100)) 0 1 ∧
    0 ≤ zoomFactor s ∧ zoomFactor s ≤ 1 ∧
    (palmCenterX h = 1/4 → palmX true h = 1/2 ∧ palmX false h = -(1/2)) := by
  refine ⟨rfl, rfl, rfl, rfl, ?_, ?_, ?_⟩
  · exact le_min (le_max_right _ _) zero_le_one
  · exact min_le_right _ _
  · intro hc
    rw [palmX, palmX, if_pos rfl, if_neg (by simp), hc]
    norm_num

/-- Witness for C6 at a concrete hand whose palm center sits at image
x = 0.25. -/
theorem C6_pointer_derivation_witness :
    palmCenterX (fun _ => (⟨1/4, 1/2, 0⟩ : Landmark)) = 1/4 ∧
    palmX true (fun _ => (⟨1/4, 1/2, 0⟩ : Landmark)) = 1/2 ∧
    palmX false (fun _ => (⟨1/4, 1/2, 0⟩ : Landmark)) = -(1/2) := by
  have hc : palmCenterX (fun _ => (⟨1/4, 1/2, 0⟩ : Landmark)) = 1/4 := by
    norm_num [palmCenterX]
  have h := (C6_pointer_derivation (fun _ => (⟨1/4, 1/2, 0⟩ : Landmark)) 0).2.2.2.2.2.2 hc
  exact ⟨hc, h.1, h.2⟩

theorem detectStep_grabEmits (s : SysState) (h : Hand) :
    (detectStep s (some h)).grabEmits = [(detectStep s (some h)).state.grab] := by
  by_cases hf : fingersFolded h = true
  · simp [detectStep, hf]
  · simp [detectStep, hf]

/-- Claim C4 (amended): onGrab is invoked exactly once per processed
(hand-present) detector sample, carrying the current grab level after that
sample — false in the fist branch, the latch value otherwise — rather than
once per transition; in particular consecutive emissions may repeat the
same value. -/
theorem C4_grab_emitted_per_sample (s : SysState) (samples : List (Option Hand)) :
    grabEmitsRun s samples = grabLevelsRun s samples ∧
    (grabEmitsRun s samples).length = samples.countP Option.isSome := by
  induction samples generalizing s with
  | nil => simp [grabEmitsRun, grabLevelsRun]
  | cons sm rest ih =>
    cases sm with
    | none =>
      have h1 := (ih s).1
      have h2 := (ih s).2
      constructor
      · simpa [grabEmitsRun, grabLevelsRun, detectStep] using h1
      · simpa [grabEmitsRun, detectStep, List.countP_cons] using h2
    | some h =>
      have h1 := (ih (detectStep s (some h)).state).1
      have h2 := (ih (detectStep s (some h)).state).2
      constructor
      · simp [grabEmitsRun, grabLevelsRun, detectStep_grabEmits, h1]
      · simp [grabEmitsRun, detectStep_grabEmits, List.countP_cons, h2]

/-- Counterexample to claim C4 as stated: two consecutive processed samples
of the same open, non-pinching hand emit onGrab(false) twice — the same grab
value is emitted twice in a row although grab never transitions, so the
stream is per-sample, not once-per-edge. -/
theorem C4_counterexample :
    grabEmitsRun sysInit [some openHand, some openHand] = [false, false] ∧
    ¬ List.Chain' (fun a b => a ≠ b) [false, false] := by
  constructor
  · simp [grabEmitsRun, detectStep, openHand_not_folded, openHand_releases, sysInit]
  · simp

theorem detectStep_no_hand (s : SysState) : detectStep s none = ⟨s, [], []⟩ := rfl

/-- Counterexample to claim C5 as stated: from the reachable PHOTO_VIEW
state with grab held, a detector tick with no hand present leaves grab true
(the claim says grab becomes false), and 100 consecutive no-hand ticks
(over 3 seconds at the 30 Hz detector rate, far beyond the claimed 1 second
grace) still leave the mode PHOTO_VIEW rather than falling back to
SCATTERED. -/
theorem C5_counterexample :
    pvState.mode = AppState.PHOTO_VIEW ∧ pvState.grab = true ∧
    (detectStep pvState none).state.grab = true ∧
    (detectStep pvState none).state.mode = AppState.PHOTO_VIEW ∧
    List.foldl stepEv pvState (List.replicate 100 (SysEvent.detect none)) = pvState := by
  have hpv : pvState = ⟨AppState.SCATTERED, AppState.PHOTO_VIEW, true, true, some 0⟩ := by
    simp [pvState, sysRun, stepEv, detectStep, frameStep, sysInit,
      pinchHand_not_folded, pinchHand_pinches]
  have hrep : ∀ n, List.foldl stepEv pvState (List.replicate n (SysEvent.detect none))
      = pvState := by
    intro n
    induction n with
    | zero => rfl
    | succ k ih => simpa [List.replicate_succ, stepEv, detectStep_no_hand] using ih
  exact ⟨by rw [hpv], by rw [hpv], by rw [detectStep_no_hand, hpv],
    by rw [detectStep_no_hand, hpv], hrep 100⟩

/-- Claim C5 (amended): a detector tick with no hand present leaves the
entire state unchanged and emits nothing — grab retains its previous value
and mode and selection are retained — and arbitrarily long runs of no-hand
ticks do the same: there is no grace-period fallback from PHOTO_VIEW to
SCATTERED. -/
theorem C5_no_hand_is_noop (s : SysState) (n : ℕ) :
    detectStep s none = ⟨s, [], []⟩ ∧
    List.foldl stepEv s (List.replicate n (SysEvent.detect none)) = s := by
  refine ⟨rfl, ?_⟩
  induction n with
  | zero => rfl
  | succ k ih => simpa [List.replicate_succ, stepEv, detectStep_no_hand] using ih

theorem sgState_eval :
    sgState = ⟨AppState.SCATTERED, AppState.SCATTERED, true, true, none⟩ := by
  simp [sgState, sysRun, stepEv, detectStep, sysInit,
    pinchHand_not_folded, pinchHand_pinches]

/-- Counterexample to claim C1 as stated: after a pinch sample raises grab,
a render frame performs the raycast (this one is on the rising edge), and
with no hit the state is unchanged; the next render frame — grab already
true beforehand, no latch transition in between — performs the raycast
again.  Pick resolution is therefore not restricted to the rising edge of
grab. -/
theorem C1_counterexample :
    sgState.grab = true ∧
    (frameStep sgState none).raycast = true ∧
    (frameStep sgState none).state = sgState ∧
    (frameStep (frameStep sgState none).state none).raycast = true := by
  have h : sgState = ⟨AppState.SCATTERED, AppState.SCATTERED, true, true, none⟩ :=
    sgState_eval
  refine ⟨by rw [h], ?_, ?_, ?_⟩ <;> rw [h] <;> rfl

/-- Claim C1 (amended): pick resolution is performed on exactly the render
frames on which the mode is SCATTERED, grab is true and no photo is
selected — every such frame, not only the rising edge of grab — and
whenever the raycast returns a hit index i, the selection becomes i and the
mode transitions to PHOTO_VIEW. -/
theorem C1_pick_resolution (s : SysState) (hit : Option ℕ) (i : ℕ) :
    ((frameStep s hit).raycast = true ↔
      (s.mode = AppState.SCATTERED ∧ s.grab = true ∧ s.active = none)) ∧
    ((s.mode = AppState.SCATTERED ∧ s.grab = true ∧ s.active = none) →
      (frameStep s (some i)).state.active = some i ∧
      (frameStep s (some i)).state.mode = AppState.PHOTO_VIEW) := by
  constructor
  · unfold frameStep
    split
    · rename_i hg
      cases hit <;> simp [hg]
    · rename_i hg
      split <;> simp [hg]
  · intro hg
    simp [frameStep, hg]

/-- Witness for C1 at the concrete reachable SCATTERED-grab state and a
raycast hit on photo 0. -/
theorem C1_pick_resolution_witness :
    (frameStep sgState (some 0)).state.active = some 0 ∧
    (frameStep sgState (some 0)).state.mode = AppState.PHOTO_VIEW := by
  refine (C1_pick_resolution sgState (some 0) 0).2 ?_
  rw [sgState_eval]
  exact ⟨rfl, rfl, rfl⟩

theorem selInv_step (s : SysState) (e : SysEvent)
    (hs : s.active ≠ none → s.mode = AppState.PHOTO_VIEW ∧ s.grab = true) :
    (stepEv s e).active ≠ none →
      (stepEv s e).mode = AppState.PHOTO_VIEW ∧ (stepEv s e).grab = true := by
  by_cases ha : s.active = none
  · -- no selection beforehand: the only step that creates one is the
    -- raycast-hit branch, which forces PHOTO_VIEW with grab held
    cases e with
    | detect sample =>
      cases sample with
      | none => intro hn; exact absurd ha (by simpa [stepEv, detectStep] using hn)
      | some h =>
        intro hn
        exfalso
        apply hn
        simp only [stepEv, detectStep]
        by_cases hf : fingersFolded h = true <;> simp [hf, ha]
    | frame hit =>
      simp only [stepEv, frameStep]
      split
      · rename_i hg
        cases hit with
        | none => intro hn; exact absurd ha hn
        | some i => intro _; exact ⟨rfl, hg.2.1⟩
      · split
        · simp
        · intro hn; exact absurd ha hn
  · -- a selection exists: the pre-invariant pins mode = PHOTO_VIEW, grab = true
    obtain ⟨hm, hg⟩ := hs ha
    cases e with
    | detect sample =>
      cases sample with
      | none => intro _; exact ⟨hm, hg⟩
      | some h =>
        simp only [stepEv, detectStep]
        by_cases hf : fingersFolded h = true
        · -- fist: mode was PHOTO_VIEW, so the batched mode is SCATTERED and
          -- the effect clears the selection; nothing survives
          simp [hf, hm]
        · by_cases hl : pinchLatchStepSq s.latch (distSq (h 4) (h 8)) = true
          · by_cases hts : s.lastState = AppState.TREE
            · simp [hf, hl, hm, hts]
            · simp [hf, hl, hm, hts]
          · have hl' : pinchLatchStepSq s.latch (distSq (h 4) (h 8)) = false := by
              revert hl
              cases pinchLatchStepSq s.latch (distSq (h 4) (h 8)) <;> simp
            simp [hf, hl', hm]
    | frame hit =>
      simp only [stepEv, frameStep]
      split
      · rename_i hcond
        rw [hm] at hcond
        exact absurd hcond.1 (by decide)
      · split
        · rename_i hcond
          rw [hg] at hcond
          exact absurd hcond.2 (by decide)
        · intro _; exact ⟨hm, hg⟩

/-- Claim C10: in every reachable state, a non-none activePhoto selection
implies mode PHOTO_VIEW with grab held; consequently whenever the mode is
SCATTERED the selection is none (the clearing effect), and whenever grab is
false the selection is none (release in PHOTO_VIEW). -/
theorem C10_selection_only_in_photo_view (es : List SysEvent) :
    ((sysRun es).active ≠ none →
      (sysRun es).mode = AppState.PHOTO_VIEW ∧ (sysRun es).grab = true) ∧
    ((sysRun es).mode = AppState.SCATTERED → (sysRun es).active = none) ∧
    ((sysRun es).grab = false → (sysRun es).active = none) := by
  have key : ∀ (es' : List SysEvent) (s : SysState),
      (s.active ≠ none → s.mode = AppState.PHOTO_VIEW ∧ s.grab = true) →
      ((es'.foldl stepEv s).active ≠ none →
        (es'.foldl stepEv s).mode = AppState.PHOTO_VIEW ∧
        (es'.foldl stepEv s).grab = true) := by
    intro es'
    induction es' with
    | nil => exact fun s hs => hs
    | cons e rest ih =>
      intro s hs
      exact ih (stepEv s e) (selInv_step s e hs)
  have hinv : (sysRun es).active ≠ none →
      (sysRun es).mode = AppState.PHOTO_VIEW ∧ (sysRun es).grab = true :=
    key es sysInit (fun hn => absurd rfl hn)
  refine ⟨hinv, ?_, ?_⟩
  · intro hmode
    by_contra hne
    have hpv := (hinv hne).1
    rw [hmode] at hpv
    exact absurd hpv (by decide)
  · intro hgrab
    by_contra hne
    have hg := (hinv hne).2
    rw [hgrab] at hg
    exact absurd hg (by decide)

/-- Witness for C10 at the concrete run that pinches in SCATTERED and hits
photo 0: the selection is some 0, and the theorem yields mode PHOTO_VIEW
with grab held. -/
theorem C10_selection_only_in_photo_view_witness :
    (sysRun [SysEvent.detect (some pinchHand), SysEvent.frame (some 0)]).active = some 0 ∧
    (sysRun [SysEvent.detect (some pinchHand), SysEvent.frame (some 0)]).mode
      = AppState.PHOTO_VIEW ∧
    (sysRun [SysEvent.detect (some pinchHand), SysEvent.frame (some 0)]).grab = true := by
  have hpv : sysRun [SysEvent.detect (some pinchHand), SysEvent.frame (some 0)]
      = ⟨AppState.SCATTERED, AppState.PHOTO_VIEW, true, true, some 0⟩ := by
    simp [sysRun, stepEv, detectStep, frameStep, sysInit,
      pinchHand_not_folded, pinchHand_pinches]
  have h := (C10_selection_only_in_photo_view
      [SysEvent.detect (some pinchHand), SysEvent.frame (some 0)]).1
      (by rw [hpv]; simp)
  exact ⟨by rw [hpv], h.1, h.2⟩

/-- Counterexample to claim C7 as stated: the code's morph advance has no
clamp on the step factor dt * 2, so a single render tick with dt = 1 in
SCATTERED mode takes m from 0 to 2, outside [0, 1]; the spec's clamped rule
would give 1. -/
theorem C7_counterexample :
    lerpAdvance 0 AppState.SCATTERED 1 = 2 ∧
    specLerpAdvance 0 AppState.SCATTERED 1 = 1 ∧
    lerpAdvance 0 AppState.SCATTERED 1 ≠ specLerpAdvance 0 AppState.SCATTERED 1 ∧
    ¬ lerpRun [(AppState.SCATTERED, 1)] ≤ 1 := by
  have hq : AppState.SCATTERED ≠ AppState.TREE := by decide
  norm_num [lerpAdvance, specLerpAdvance, targetLerp, clampQ, lerpRun, min_def, max_def, hq]

/-- Claim C7 (amended): the code advances the morph parameter by
m := m + dt * 2 * (target - m) with no clamping of the step factor; on every
tick with 0 ≤ dt ≤ 1/2 this coincides with the spec's clamped rule
m + clamp(dt * 2, 0, 1) * (target - m), and along any run of such ticks the
morph parameter, started at 0, stays within [0, 1].  A tick with dt > 1/2
can overshoot (see the counterexample). -/
theorem C7_morph_bounded (ticks : List (AppState × ℚ))
    (hdt : ∀ p ∈ ticks, 0 ≤ p.2 ∧ p.2 ≤ 1/2) :
    (∀ (m : ℚ) (mode : AppState) (dt : ℚ), 0 ≤ dt → dt ≤ 1/2 →
      lerpAdvance m mode dt = specLerpAdvance m mode dt) ∧
    0 ≤ lerpRun ticks ∧ lerpRun ticks ≤ 1 := by
  have htgt : ∀ mode : AppState, 0 ≤ targetLerp mode ∧ targetLerp mode ≤ 1 := by
    intro mode
    unfold targetLerp
    split <;> norm_num
  have hstep : ∀ (m : ℚ) (mode : AppState) (dt : ℚ),
      0 ≤ m → m ≤ 1 → 0 ≤ dt → dt ≤ 1/2 →
      0 ≤ lerpAdvance m mode dt ∧ lerpAdvance m mode dt ≤ 1 := by
    intro m mode dt hm0 hm1 hd0 hd1
    obtain ⟨ht0, ht1⟩ := htgt mode
    unfold lerpAdvance
    constructor
    · nlinarith [mul_nonneg hm0 (by linarith : (0:ℚ) ≤ 1 - 2 * dt),
        mul_nonneg (mul_nonneg hd0 ht0) (by norm_num : (0:ℚ) ≤ 2)]
    · nlinarith [mul_nonneg (by linarith : (0:ℚ) ≤ 1 - m)
        (by linarith : (0:ℚ) ≤ 1 - 2 * dt),
        mul_nonneg (mul_nonneg hd0 (by linarith : (0:ℚ) ≤ 1 - targetLerp mode))
        (by norm_num : (0:ℚ) ≤ 2)]
  constructor
  · intro m mode dt h0 h1
    have hmax : max (dt * 2) 0 = dt * 2 := max_eq_left (by linarith)
    have hmin : min (dt * 2) 1 = dt * 2 := min_eq_left (by linarith)
    simp only [lerpAdvance, specLerpAdvance, clampQ, hmax, hmin]
    ring
  · have hrun : ∀ (ts : List (AppState × ℚ)) (m : ℚ), 0 ≤ m → m ≤ 1 →
        (∀ p ∈ ts, 0 ≤ p.2 ∧ p.2 ≤ 1/2) →
        0 ≤ ts.foldl (fun m p => lerpAdvance m p.1 p.2) m ∧
        ts.foldl (fun m p => lerpAdvance m p.1 p.2) m ≤ 1 := by
      intro ts
      induction ts with
      | nil => intro m hm0 hm1 _; exact ⟨hm0, hm1⟩
      | cons p rest ih =>
        intro m hm0 hm1 hts
        have hp := hts p (List.mem_cons_self _ _)
        have h1 := hstep m p.1 p.2 hm0 hm1 hp.1 hp.2
        exact ih _ h1.1 h1.2 (fun q hq => hts q (List.mem_cons_of_mem _ hq))
    exact hrun ticks 0 le_rfl (by norm_num) hdt

/-- Witness for C7 on a concrete two-tick run with admissible time steps. -/
theorem C7_morph_bounded_witness :
    0 ≤ lerpRun [(AppState.SCATTERED, 1/4), (AppState.TREE, 1/2)] ∧
    lerpRun [(AppState.SCATTERED, 1/4), (AppState.TREE, 1/2)] ≤ 1 := by
  have h := C7_morph_bounded [(AppState.SCATTERED, 1/4), (AppState.TREE, 1/2)]
    (by
      intro p hp
      simp only [List.mem_cons, List.mem_singleton] at hp
      rcases hp with rfl | rfl | hp
      · norm_num
      · norm_num
      · simp at hp)
  exact h.2

theorem latch_stays_true (enter exit : ℚ) :
    ∀ ds : List ℚ, (∀ d ∈ ds, d ≤ exit) →
      countRises enter exit true ds = 0 ∧ countFalls enter exit true ds = 0 := by
  intro ds
  induction ds with
  | nil => intro _; exact ⟨rfl, rfl⟩
  | cons d rest ih =>
    intro hds
    have hd := hds d (List.mem_cons_self _ _)
    have hstep : pinchLatchStepP enter exit true d = true := by
      simp [pinchLatchStepP, not_lt.mpr hd]
    have hrest := ih (fun x hx => hds x (List.mem_cons_of_mem _ hx))
    constructor
    · simp [countRises, hstep, hrest.1]
    · simp [countFalls, hstep, hrest.2]

theorem latch_stays_false (enter exit : ℚ) :
    ∀ ds : List ℚ, (∀ d ∈ ds, enter ≤ d) →
      countRises enter exit false ds = 0 ∧ countFalls enter exit false ds = 0 := by
  intro ds
  induction ds with
  | nil => intro _; exact ⟨rfl, rfl⟩
  | cons d rest ih =>
    intro hds
    have hd := hds d (List.mem_cons_self _ _)
    have hstep : pinchLatchStepP enter exit false d = false := by
      simp [pinchLatchStepP, not_lt.mpr hd]
    have hrest := ih (fun x hx => hds x (List.mem_cons_of_mem _ hx))
    constructor
    · simp [countRises, hstep, hrest.1]
    · simp [countFalls, hstep, hrest.2]

theorem antitone_from_false (enter exit : ℚ) (hee : enter ≤ exit) :
    ∀ ds : List ℚ, List.Pairwise (fun a b => b ≤ a) ds →
      countRises enter exit false ds ≤ 1 ∧ countFalls enter exit false ds = 0 := by
  intro ds
  induction ds with
  | nil => intro _; exact ⟨by simp [countRises], rfl⟩
  | cons d rest ih =>
    intro hp
    rw [List.pairwise_cons] at hp
    by_cases hd : d < enter
    · have hstep : pinchLatchStepP enter exit false d = true := by
        simp [pinchLatchStepP, hd]
      have hrest := latch_stays_true enter exit rest
        (fun x hx => le_trans (hp.1 x hx) (le_trans (le_of_lt hd) hee))
      constructor
      · simp [countRises, hstep, hrest.1]
      · simp [countFalls, hstep, hrest.2]
    · have hstep : pinchLatchStepP enter exit false d = false := by
        simp [pinchLatchStepP, hd]
      have hrest := ih hp.2
      constructor
      · simp [countRises, hstep, hrest.1]
      · simp [countFalls, hstep, hrest.2]

theorem monotone_from_true (enter exit : ℚ) (hee : enter ≤ exit) :
    ∀ ds : List ℚ, List.Pairwise (fun a b => a ≤ b) ds →
      countRises enter exit true ds = 0 ∧ countFalls enter exit true ds ≤ 1 := by
  intro ds
  induction ds with
  | nil => intro _; exact ⟨rfl, by simp [countFalls]⟩
  | cons d rest ih =>
    intro hp
    rw [List.pairwise_cons] at hp
    by_cases hd : exit < d
    · have hstep : pinchLatchStepP enter exit true d = false := by
        simp [pinchLatchStepP, hd]
      have hrest := latch_stays_false enter exit rest
        (fun x hx => le_trans (le_trans hee (le_of_lt hd)) (hp.1 x hx))
      constructor
      · simp [countRises, hstep, hrest.1]
      · simp [countFalls, hstep, hrest.2]
    · have hstep : pinchLatchStepP enter exit true d = true := by
        simp [pinchLatchStepP, hd]
      have hrest := ih hp.2
      constructor
      · simp [countRises, hstep, hrest.1]
      · simp [countFalls, hstep, hrest.2]

theorem antitone_from_true (enter exit : ℚ) (hee : enter ≤ exit) :
    ∀ ds : List ℚ, List.Pairwise (fun a b => b ≤ a) ds →
      countRises enter exit true ds ≤ 1 ∧ countFalls enter exit true ds ≤ 1 := by
  intro ds
  induction ds with
  | nil => intro _; exact ⟨by simp [countRises], by simp [countFalls]⟩
  | cons d rest ih =>
    intro hp
    rw [List.pairwise_cons] at hp
    by_cases hd : exit < d
    · have hstep : pinchLatchStepP enter exit true d = false := by
        simp [pinchLatchStepP, hd]
      have hrest := antitone_from_false enter exit hee rest hp.2
      constructor
      · simp [countRises, hstep]
        exact hrest.1
      · simp [countFalls, hstep, hrest.2]
    · have hstep : pinchLatchStepP enter exit true d = true := by
        simp [pinchLatchStepP, hd]
      have hrest := ih hp.2
      constructor
      · simp [countRises, hstep, hrest.1]
      · simp [countFalls, hstep]
        exact hrest.2

theorem monotone_from_false (enter exit : ℚ) (hee : enter ≤ exit) :
    ∀ ds : List ℚ, List.Pairwise (fun a b => a ≤ b) ds →
      countRises enter exit false ds ≤ 1 ∧ countFalls enter exit false ds ≤ 1 := by
  intro ds
  induction ds with
  | nil => intro _; exact ⟨by simp [countRises], by simp [countFalls]⟩
  | cons d rest ih =>
    intro hp
    rw [List.pairwise_cons] at hp
    by_cases hd : d < enter
    · have hstep : pinchLatchStepP enter exit false d = true := by
        simp [pinchLatchStepP, hd]
      have hrest := monotone_from_true enter exit hee rest hp.2
      constructor
      · simp [countRises, hstep, hrest.1]
      · simp [countFalls, hstep]
        exact hrest.2
    · have hstep : pinchLatchStepP enter exit false d = false := by
        simp [pinchLatchStepP, hd]
      have hrest := ih hp.2
      constructor
      · simp [countRises, hstep, hrest.1]
      · simp [countFalls, hstep]
        exact hrest.2

theorem altList_edge_count (n : ℕ) :
    countRises PINCH_ENTER PINCH_EXIT false (altList n) = min n 1 ∧
    countFalls PINCH_ENTER PINCH_EXIT false (altList n) = 0 := by
  cases n with
  | zero => exact ⟨rfl, rfl⟩
  | succ k =>
    have hhead : altList (k + 1)
        = (55/1000 : ℚ) :: (List.range k).map
            (fun i => if (i + 1) % 2 = 0 then (55/1000 : ℚ) else 65/1000) := by
      simp [altList, List.range_succ_eq_map, List.map_map, Function.comp]
    have htail : ∀ x ∈ (List.range k).map
        (fun i => if (i + 1) % 2 = 0 then (55/1000 : ℚ) else 65/1000),
        x ≤ PINCH_EXIT := by
      intro x hx
      rw [List.mem_map] at hx
      obtain ⟨i, _, rfl⟩ := hx
      by_cases hi : (i + 1) % 2 = 0 <;> simp [hi, PINCH_EXIT] <;> norm_num
    have hstep : pinchLatchStepP PINCH_ENTER PINCH_EXIT false (55/1000) = true := by
      simp [pinchLatchStepP, PINCH_ENTER]
      norm_num
    have hrest := latch_stays_true PINCH_ENTER PINCH_EXIT _ htail
    rw [hhead]
    constructor
    · simp [countRises, hstep, hrest.1]
    · simp [countFalls, hstep, hrest.2]

/-- Claim C8: for thresholds with enter strictly below exit the latch never
changes while the distance lies inside the closed gap, and along any
monotone distance run (nonincreasing or nondecreasing, from either latch
state) it produces at most one rising and at most one falling edge; in
particular, from an unlatched state, distances alternating 0.055, 0.065
forever produce exactly one rising edge (at the first 0.055) and no falling
edge, for a run of any length. -/
theorem C8_hysteresis_one_edge (enter exit : ℚ) (hee : enter < exit)
    (l0 : Bool) (ds : List ℚ) (n : ℕ) :
    (∀ d, enter ≤ d → d ≤ exit → ∀ l, pinchLatchStepP enter exit l d = l) ∧
    (List.Pairwise (fun a b => b ≤ a) ds →
      countRises enter exit l0 ds ≤ 1 ∧ countFalls enter exit l0 ds ≤ 1) ∧
    (List.Pairwise (fun a b => a ≤ b) ds →
      countRises enter exit l0 ds ≤ 1 ∧ countFalls enter exit l0 ds ≤ 1) ∧
    countRises PINCH_ENTER PINCH_EXIT false (altList n) = min n 1 ∧
    countFalls PINCH_ENTER PINCH_EXIT false (altList n) = 0 := by
  refine ⟨?_, ?_, ?_, (altList_edge_count n).1, (altList_edge_count n).2⟩
  · intro d hd1 hd2 l
    cases l with
    | false => simp [pinchLatchStepP, not_lt.mpr hd1]
    | true => simp [pinchLatchStepP, not_lt.mpr hd2]
  · intro hp
    cases l0 with
    | false =>
      have h := antitone_from_false enter exit (le_of_lt hee) ds hp
      exact ⟨h.1, by rw [h.2]; norm_num⟩
    | true => exact antitone_from_true enter exit (le_of_lt hee) ds hp
  · intro hp
    cases l0 with
    | false => exact monotone_from_false enter exit (le_of_lt hee) ds hp
    | true =>
      have h := monotone_from_true enter exit (le_of_lt hee) ds hp
      exact ⟨by rw [h.1]; norm_num, h.2⟩

/-- Witness for C8 at the source thresholds, a concrete nonincreasing
distance run from the unlatched state, and a five-sample alternating run. -/
theorem C8_hysteresis_one_edge_witness :
    (countRises (6/100) (10/100) false [3/20, 1/10, 1/20] ≤ 1 ∧
     countFalls (6/100) (10/100) false [3/20, 1/10, 1/20] ≤ 1) ∧
    countRises PINCH_ENTER PINCH_EXIT false (altList 5) = min 5 1 ∧
    countFalls PINCH_ENTER PINCH_EXIT false (altList 5) = 0 := by
  have h := C8_hysteresis_one_edge (6/100) (10/100) (by norm_num) false
    [3/20, 1/10, 1/20] 5
  refine ⟨h.2.1 ?_, h.2.2.2.1, h.2.2.2.2⟩
  simp [List.pairwise_cons]
  norm_num
